import Mathlib

/-!
Shallow embedding of the reward-rate evaluation engine of
`finance_assistant/backend/data_manager.py` (class `DataManager`), together
with proofs settling the frozen claims about it.

Conventions of the embedding:
* Python floats are modelled as rationals (`ℚ`); all rate arithmetic here is
  `max`, comparison and subtraction, which floats perform exactly on the
  magnitudes involved, so `ℚ` is faithful.
* A dict field that may be absent is an `Option`; `dict.get(k, d)` is `getD`.
* A value stored under a `rate` key on which `float(...)` may be called is a
  `RateVal`: `num q` when the conversion succeeds with value `q`, `malformed`
  when it raises `ValueError`/`TypeError`.
* "today" is passed in as the current month (1..12), since the code only uses
  `date.today().month` and the derived quarter.
-/

/-- Value found under a `rate` key: either something `float()` accepts
(numbers, numeric strings), or a value making `float()` raise. -/
inductive RateVal
  | num (q : ℚ)
  | malformed
deriving DecidableEq

/-- One element of a rule's condition list as stored: either already a plain
value (stringified by `str(item)`), or a dict carrying a `name` key, from
which `extract_names` takes `item['name']`. -/
inductive CondItem
  | plain (s : String)
  | named (s : String)
deriving DecidableEq

/-- A reward rule dict as read by `find_best_card_for_transaction` and
`get_best_overall_reward_scenarios`: condition lists under `category`,
`payee`, `paymentMethod`, a `rate` key (absent key defaults to `0.0` via
`rule.get('rate', 0.0)`), and the rotating-card fields `is_rotating`
(default `True`), `months`, `quarters`. -/
structure RewardRule where
  category : List CondItem := []
  payee : List CondItem := []
  paymentMethod : List CondItem := []
  rate : Option RateVal := none
  is_rotating : Bool := true
  months : List Nat := []
  quarters : List Nat := []
deriving DecidableEq

/-- One entry of `card['dynamic_rewards']['active_rules']`:
`nested` models a dict holding both a `rule` and a `rate` key (plus the
`tier_id` written by `update_active_rules`), `flat` a dict missing one of
them (the entry itself is then treated as a rule), `notDict` anything else
(skipped by the evaluator). -/
inductive ActiveEntry
  | nested (tier_id : Option String) (rule : RewardRule) (rate : RateVal)
  | flat (rule : RewardRule)
  | notDict
deriving DecidableEq

/-- A tier dict inside `card['dynamic_rewards']['tiers']`; only the fields
`update_active_rules` reads are modelled. -/
structure DynTier where
  tier_id : Option String := none
  rate : Option RateVal := none
deriving DecidableEq

/-- The `card['dynamic_rewards']` sub-dict. -/
structure DynamicRewards where
  tiers : List DynTier := []
  active_rules : List ActiveEntry := []
deriving DecidableEq

/-- The nested `card['reward_structure']` dict consulted (only) by
`optimize_dynamic_rewards` via `.get('reward_structure', {}).get('type')`. -/
structure RSInfo where
  rstype : Option String := none
deriving DecidableEq

/-- A credit-card record, restricted to the keys the operations under
verification read.  Note the source uses three distinct keys for the
structure kind: `reward_structure_type` (evaluator, values
`Static`/`Rotating`/`Dynamic`), `rewards_structure` (`update_active_rules`,
value `dynamic`), and the nested `reward_structure.type`
(`optimize_dynamic_rewards`, value `dynamic`). -/
structure Card where
  id : Option String := none
  card_name : Option String := none
  name : Option String := none
  bank : Option String := none
  base_rate : Option RateVal := none
  reward_structure_type : Option String := none
  rotation_period : Option String := none
  static_rewards : List RewardRule := []
  rotating_rules : List RewardRule := []
  dynamic_rewards : DynamicRewards := {}
  rewards_structure : Option String := none
  reward_structure : Option RSInfo := none
deriving DecidableEq

/-- The transaction context passed to `find_best_card_for_transaction`;
every field is optional (`None` in Python).  `amount_milliunits` is carried
but never used by the rate logic. -/
structure TransactionContext where
  category_id : Option String := none
  payee_id : Option String := none
  payment_method_id : Option String := none
  amount_milliunits : Int := 0
deriving DecidableEq

/-- The `card` sub-dict of an output scenario row. -/
structure CardInfo where
  id : Option String := none
  name : String := ""
  bank : Option String := none
deriving DecidableEq

/-- The three condition lists carried through rule evaluation. -/
structure CondLists where
  category : List String := []
  payee : List String := []
  paymentMethod : List String := []
deriving DecidableEq

/-- One output row (`ScenarioResult`): the scenario dicts built by both
public operations.  `rtype` models the `'type'` key (always `'%'`). -/
structure Scenario where
  card : CardInfo := {}
  rate : ℚ := 0
  rtype : String := "%"
  category : List String := []
  payee : List String := []
  paymentMethod : List String := []
deriving DecidableEq

/-- State of the best-matching-rule loop in `find_best_card_for_transaction`:
`best` is `best_rule_rate_for_card` (initialised to `-1.0`), `conds` is
`applicable_rule_details` (initialised to three empty lists). -/
structure EvalState where
  best : ℚ := -1
  conds : CondLists := {}
deriving DecidableEq

/-- Result of `float(v)` on a rate value: `some q` on success, `none` when the
conversion raises (the caller then skips the rule). -/
def parseRate : RateVal → Option ℚ
  | RateVal.num q => some q
  | RateVal.malformed => none

/-- `float(card.get('base_rate', 0.0))` with the `except` clause that falls
back to `0.0` on a malformed value. -/
def parseBaseRate (card : Card) : ℚ :=
  match parseRate (card.base_rate.getD (RateVal.num 0)) with
  | some q => q
  | none => 0

/-- The `extract_names` helper: maps every condition item to a string, taking
`item['name']` from dicts that have a `name` key and `str(item)` otherwise.
An absent or empty condition value is the empty list. -/
def extractNames (l : List CondItem) : List String :=
  l.map fun it =>
    match it with
    | CondItem.plain s => s
    | CondItem.named s => s

/-- One conjunct of the match logic:
`(not rule_list) or (ctx_field is not None and ctx_field in rule_list)`. -/
def condMatch (ruleList : List String) (ctxField : Option String) : Bool :=
  ruleList.isEmpty ||
    (match ctxField with
     | some v => ruleList.contains v
     | none => false)

/-- Overall match of one rule against the context: the AND of the category,
payee and payment-method conjuncts, each over the normalised name lists. -/
def ruleMatches (r : RewardRule) (ctx : TransactionContext) : Bool :=
  condMatch (extractNames r.category) ctx.category_id &&
  condMatch (extractNames r.payee) ctx.payee_id &&
  condMatch (extractNames r.paymentMethod) ctx.payment_method_id

/-- `current_quarter = (current_month - 1) // 3 + 1`. -/
def quarterOf (month : Nat) : Nat :=
  (month - 1) / 3 + 1

/-- View of a dynamic `active_rules` entry as a candidate rule:
a nested entry contributes its inner rule with the entry-level rate written
into it (`rule_details['rate'] = active_rule_entry['rate']`), a flat dict is
used as a rule directly, anything else is skipped. -/
def ActiveEntry.toRule : ActiveEntry → Option RewardRule
  | ActiveEntry.nested _ r v => some { r with rate := some v }
  | ActiveEntry.flat r => some r
  | ActiveEntry.notDict => none

/-- The in-place effect of the dynamic branch on one `active_rules` entry:
`rule_details['rate'] = active_rule_entry['rate']` overwrites the nested
rule's `rate` key with the entry-level rate. -/
def mutateEntry : ActiveEntry → ActiveEntry
  | ActiveEntry.nested tid r v => ActiveEntry.nested tid { r with rate := some v } v
  | e => e

/-- Gathers the candidate rules for one card (`rules_to_check` /
`rules_to_process` - the two operations use the identical logic), and
returns the card as it stands afterwards, reflecting the in-place rate
write performed while unpacking dynamic entries. -/
def gatherRulesSt (card : Card) (month : Nat) : List RewardRule × Card :=
  let rt := card.reward_structure_type.getD "Static"
  if rt = "Static" then
    (card.static_rewards, card)
  else if rt = "Rotating" then
    let period := card.rotation_period.getD "Quarterly"
    let rules := card.rotating_rules.filter fun r =>
      if !r.is_rotating then true
      else if period = "Monthly" then r.months.contains month
      else if period = "Quarterly" then r.quarters.contains (quarterOf month)
      else false
    (rules, card)
  else if rt = "Dynamic" then
    (card.dynamic_rewards.active_rules.filterMap ActiveEntry.toRule,
     { card with
        dynamic_rewards :=
          { card.dynamic_rewards with
             active_rules := card.dynamic_rewards.active_rules.map mutateEntry } })
  else
    ([], card)

/-- The candidate rules of a card for the current month. -/
def gatherRules (card : Card) (month : Nat) : List RewardRule :=
  (gatherRulesSt card month).1

/-- One iteration of the rule loop of `find_best_card_for_transaction`:
parse the rate (skipping the rule when `float` raises), normalise the three
condition lists, test the match, and keep the rule when it strictly improves
`best_rule_rate_for_card`. -/
def stepRule (ctx : TransactionContext) (s : EvalState) (r : RewardRule) : EvalState :=
  match parseRate (r.rate.getD (RateVal.num 0)) with
  | none => s
  | some q =>
    if ruleMatches r ctx then
      if s.best < q then
        { best := q
          conds := ⟨extractNames r.category, extractNames r.payee,
                    extractNames r.paymentMethod⟩ }
      else s
    else s

/-- Rule evaluation for one card: fold the rule loop from
`best_rule_rate_for_card = -1.0`, set the effective rate to
`max(base_rate, best_rule_rate_for_card)`, and clear the condition lists
when `card_effective_rate == base_rate and best_rule_rate_for_card <
base_rate`. -/
def evalRules (base : ℚ) (rules : List RewardRule) (ctx : TransactionContext) :
    ℚ × CondLists :=
  let st := rules.foldl (stepRule ctx) {}
  let rate := max base st.best
  (rate, if rate = base ∧ st.best < base then {} else st.conds)

/-- The `card` info dict of an output row:
`card.get('card_name', card.get('name', f'Card {card_id}'))`; a card with
neither name key gets the interpolation of its (possibly `None`) id. -/
def cardInfoOf (card : Card) : CardInfo :=
  { id := card.id
    name := card.card_name.getD (card.name.getD ("Card " ++ card.id.getD "None"))
    bank := card.bank }

/-- The scenario row `find_best_card_for_transaction` appends for one card. -/
def evalCardScenario (card : Card) (rules : List RewardRule) (ctx : TransactionContext) :
    Scenario :=
  let rc := evalRules (parseBaseRate card) rules ctx
  { card := cardInfoOf card
    rate := rc.1
    rtype := "%"
    category := rc.2.category
    payee := rc.2.payee
    paymentMethod := rc.2.paymentMethod }

/-- Descending-by-rate order used by both `sort(key=lambda x: x['rate'],
reverse=True)` calls.  Python's sort is stable, which
`List.insertionSort` with this relation is as well. -/
def rateGE (a b : Scenario) : Prop := b.rate ≤ a.rate

instance : DecidableRel rateGE := fun a b => inferInstanceAs (Decidable (b.rate ≤ a.rate))

/-- Stable descending sort of scenario rows by rate. -/
def sortByRateDesc (l : List Scenario) : List Scenario :=
  l.insertionSort rateGE

/-- Loop body of `find_best_card_for_transaction`: gather this card's rules
(with the attendant in-place write), evaluate them, and append the row. -/
def fbStep (ctx : TransactionContext) (month : Nat)
    (acc : List Scenario × List Card) (card : Card) : List Scenario × List Card :=
  let rc := gatherRulesSt card month
  (acc.1 ++ [evalCardScenario card rc.1 ctx], acc.2 ++ [rc.2])

/-- `find_best_card_for_transaction`: evaluate every card of the store
against the context and sort the rows by rate, descending.  The second
component is the card list as it stands after the call (the function reads
the shared store and, for dynamic cards, writes rates into nested rule
dicts while unpacking them). -/
def find_best_card_for_transaction (cards : List Card) (ctx : TransactionContext)
    (month : Nat) : List Scenario × List Card :=
  let r := cards.foldl (fbStep ctx month) ([], [])
  (sortByRateDesc r.1, r.2)

/-- The base-rate scenario of a card in `get_best_overall_reward_scenarios`:
unconditional (all three condition lists empty). -/
def baseScenario (card : Card) : Scenario :=
  { card := cardInfoOf card
    rate := parseBaseRate card
    rtype := "%"
    category := []
    payee := []
    paymentMethod := [] }

/-- The scenario `get_best_overall_reward_scenarios` emits for one rule:
`none` when `float(rate)` raises, when `rule_rate <= 0`, or when all three
normalised condition lists are empty and the rate equals the base rate (the
base-rate-duplicate skip). -/
def ruleScenario (base : ℚ) (info : CardInfo) (r : RewardRule) : Option Scenario :=
  match parseRate (r.rate.getD (RateVal.num 0)) with
  | none => none
  | some q =>
    if q ≤ 0 then none
    else
      let catL := extractNames r.category
      let payL := extractNames r.payee
      let pmL := extractNames r.paymentMethod
      if catL = [] ∧ payL = [] ∧ pmL = [] ∧ q = base then none
      else some { card := info, rate := q, rtype := "%",
                  category := catL, payee := payL, paymentMethod := pmL }

/-- All scenarios `get_best_overall_reward_scenarios` generates for one card,
in generation order: the base-rate scenario when `base_rate > 0`, then one
scenario per usable gathered rule. -/
def genCardScenarios (card : Card) (rules : List RewardRule) : List Scenario :=
  let base := parseBaseRate card
  (if 0 < base then [baseScenario card] else []) ++
    rules.filterMap (ruleScenario base (cardInfoOf card))

/-- Loop body of `get_best_overall_reward_scenarios` over cards. -/
def enStep (month : Nat) (acc : List Scenario × List Card) (card : Card) :
    List Scenario × List Card :=
  let rc := gatherRulesSt card month
  (acc.1 ++ genCardScenarios card rc.1, acc.2 ++ [rc.2])

/-- `get_best_overall_reward_scenarios`: gather every card's base-rate and
rule scenarios and sort them by rate, descending.  As with
`find_best_card_for_transaction` the second component is the card list after
the call. -/
def get_best_overall_reward_scenarios (cards : List Card) (month : Nat) :
    List Scenario × List Card :=
  let r := cards.foldl (enStep month) ([], [])
  (sortByRateDesc r.1, r.2)

/-- The fresh default card dict `get_manual_credit_card_details` builds when
no stored card has the requested id (restricted to the modelled keys; the
default dict carries `bank_name` rather than `bank`, and no `card_name`,
`dynamic_rewards`, `rewards_structure` or `reward_structure` key). -/
def defaultCardDetails (id : String) : Card :=
  { id := some id
    name := some ""
    base_rate := some (RateVal.num 0)
    reward_structure_type := some "Static"
    rotation_period := some "Quarterly"
    static_rewards := []
    rotating_rules := [] }

/-- The normalisation `get_manual_credit_card_details` applies in place to
the card it returns, restricted to the modelled keys: `setdefault
('base_rate', 0.0)` and the reset of an invalid `reward_structure_type` to
`Static`.  (The `reward_system`/`points_program`/`requires_activation`/
`rotating_period_status` defaults and the not-a-list resets concern keys and
shapes outside this model.) -/
def normalizeCardDetails (c : Card) : Card :=
  let c1 := { c with base_rate := some (c.base_rate.getD (RateVal.num 0)) }
  match c1.reward_structure_type with
  | none => c1
  | some t =>
    if t = "Static" ∨ t = "Rotating" ∨ t = "Dynamic" then c1
    else { c1 with reward_structure_type := some "Static" }

/-- Replaces the first list entry satisfying `p` (the in-place mutation of
the found dict, which the containing list aliases). -/
def replaceFirst (p : Card → Bool) (newC : Card) : List Card → List Card
  | [] => []
  | x :: xs => if p x then newC :: xs else x :: replaceFirst p newC xs

/-- `get_manual_credit_card_details`: find the first card with the given id
and normalise it in place, or build (and normalise) a fresh default card
without adding it to the store.  Returns the card and the store as it
stands afterwards. -/
def get_manual_credit_card_details (cards : List Card) (id : String) :
    Card × List Card :=
  match cards.find? (fun c => c.id == some id) with
  | some c =>
    let c2 := normalizeCardDetails c
    (c2, replaceFirst (fun c => c.id == some id) c2 cards)
  | none => (normalizeCardDetails (defaultCardDetails id), cards)

/-- `optimize_dynamic_rewards`: look the card up; unless the nested
`reward_structure.type` equals `'dynamic'`, log and return `False`.
Otherwise the optimisation body is a placeholder that only logs a warning
and returns `True` - no selection logic runs and nothing is written.  (The
`if not card_details` guard in the source can never fire because the helper
always returns a non-empty dict.)  Returns the success flag and the store
as it stands afterwards. -/
def optimize_dynamic_rewards (cards : List Card) (credit_card_id : String) :
    Bool × List Card :=
  let r := get_manual_credit_card_details cards credit_card_id
  if (r.1.reward_structure.bind RSInfo.rstype) ≠ some "dynamic" then
    (false, r.2)
  else
    (true, r.2)

/-- A Python exception escaping an operation. -/
inductive PyErr
  | attributeError (name : String)
deriving DecidableEq

/-- The class `DataManager` defines no method `get_credit_cards` (the only
`get_credit_cards` in the repository is a Flask route in `app.py`), so
`self.get_credit_cards()` raises `AttributeError`. -/
def DataManager_get_credit_cards : Except PyErr (List Card) :=
  Except.error (PyErr.attributeError "get_credit_cards")

/-- The class `DataManager` never assigns `self.logger` (it logs through the
module-level `_LOGGER`), so `self.logger` raises `AttributeError`. -/
def DataManager_logger : Except PyErr Unit :=
  Except.error (PyErr.attributeError "logger")

/-- The class `DataManager` defines no method `save_credit_cards` either. -/
def DataManager_save_credit_cards (_cards : List Card) : Except PyErr Unit :=
  Except.error (PyErr.attributeError "save_credit_cards")

/-- One element of the `active_rules` payload of `update_active_rules`:
a dict with optional `tier_id` and `rule` keys (`none` also stands for a
falsy value, which the validation skips). -/
structure UpdateRuleData where
  tier_id : Option String := none
  rule : Option RewardRule := none
deriving DecidableEq

/-- Validation of one payload entry against the card's tier map: skip it
unless `tier_id` and `rule` are truthy and the tier exists; otherwise attach
the tier's rate.  (`tier_map` is a dict comprehension, so a duplicated
`tier_id` resolves to the last tier carrying it.) -/
def validateRuleData (tiers : List DynTier) (rd : UpdateRuleData) : Option ActiveEntry :=
  match rd.tier_id, rd.rule with
  | some tid, some r =>
    if tid = "" then none
    else
      match tiers.reverse.find? (fun t => t.tier_id == some tid) with
      | some tier => some (ActiveEntry.nested (some tid) r (tier.rate.getD (RateVal.num 0)))
      | none => none
  | _, _ => none

/-- `update_active_rules`: the source body first evaluates
`await self.get_credit_cards()`, which raises `AttributeError` (see
`DataManager_get_credit_cards`), so the remainder - find the card, require
`rewards_structure == 'dynamic'`, validate the payload against `tiers`,
write `active_rules` and save - is unreachable; it is nevertheless
translated below, operating on the list that call would have produced. -/
def update_active_rules (credit_card_id : String)
    (active_rules : List UpdateRuleData) : Except PyErr (Bool × List Card) := do
  let credit_cards ← DataManager_get_credit_cards
  match credit_cards.find? (fun c => c.id == some credit_card_id) with
  | none => do
    let _ ← DataManager_logger
    pure (false, credit_cards)
  | some target =>
    if target.rewards_structure ≠ some "dynamic" then do
      let _ ← DataManager_logger
      pure (false, credit_cards)
    else do
      let valid := (active_rules.filterMap (validateRuleData target.dynamic_rewards.tiers))
      let target2 := { target with
        dynamic_rewards := { target.dynamic_rewards with active_rules := valid } }
      let cards2 := replaceFirst (fun c => c.id == some credit_card_id) target2 credit_cards
      let _ ← DataManager_save_credit_cards cards2
      pure (true, cards2)

/-- A rule dict as consumed by `_calculate_rule_score`: raw optional
`category`, `payee`, `payment_method` values (note the snake-case key,
unlike the evaluator's `paymentMethod`). -/
structure CompRule where
  category : Option String := none
  payee : Option String := none
  payment_method : Option String := none
deriving DecidableEq

/-- An `active_rules` entry as read by `_calculate_rule_score`:
`active_rule.get('rule', {})` and `active_rule.get('rate', 0)`. -/
structure CompActiveRule where
  rule : Option CompRule := none
  rate : ℚ := 0
deriving DecidableEq

/-- A competing card as read by `_calculate_rule_score`.  This function
consults a key set of its own: `rewards_structure` (lowercase values), a
static `rewards` dict (category keys, a `payees` sub-dict and a `default`
entry), a rotating `current_rewards` dict of the same shape, and dynamic
`dynamic_rewards.active_rules`. -/
structure CompCard where
  rewards_structure : Option String := none
  rewards_cats : List (String × ℚ) := []
  rewards_payees : List (String × ℚ) := []
  rewards_default : ℚ := 0
  current_cats : List (String × ℚ) := []
  current_payees : List (String × ℚ) := []
  current_default : ℚ := 0
  active_rules : List CompActiveRule := []
deriving DecidableEq

/-- `field and field in table` followed by `table[field]`: `some v` when the
field is truthy (present and non-empty) and the table has it. -/
def condLookup (field : Option String) (tbl : List (String × ℚ)) : Option ℚ :=
  match field with
  | none => none
  | some s => if s = "" then none else tbl.lookup s

/-- The static branch of the competing-rate loop: the category entry if the
rule's category is truthy and listed, else the payee entry likewise, else
`rewards.get('default', 0)`. -/
def staticOffer (r : CompRule) (c : CompCard) : ℚ :=
  match condLookup r.category c.rewards_cats with
  | some v => v
  | none =>
    match condLookup r.payee c.rewards_payees with
    | some v => v
    | none => c.rewards_default

/-- The rotating branch, identical in shape over `current_rewards`. -/
def rotatingOffer (r : CompRule) (c : CompCard) : ℚ :=
  match condLookup r.category c.current_cats with
  | some v => v
  | none =>
    match condLookup r.payee c.current_payees with
    | some v => v
    | none => c.current_default

/-- The dynamic branch's per-entry test: the active rule definition matches
when any one of the three raw components is `==`-equal (so two absent
components also match). -/
def compEntryMatches (r : CompRule) (e : CompActiveRule) : Bool :=
  let d := e.rule.getD {}
  d.category == r.category || d.payee == r.payee || d.payment_method == r.payment_method

/-- One iteration of the competing-rate loop of `_calculate_rule_score` over
the other cards, folding `best_competing_rate`. -/
def compCardFold (r : CompRule) (acc : ℚ) (c : CompCard) : ℚ :=
  if c.rewards_structure = some "static" then
    max acc (staticOffer r c)
  else if c.rewards_structure = some "rotating" then
    max acc (rotatingOffer r c)
  else if c.rewards_structure = some "dynamic" then
    c.active_rules.foldl (fun a e => if compEntryMatches r e then max a e.rate else a) acc
  else acc

/-- `best_competing_rate`: starts at `0` and folds over the other cards. -/
def best_competing_rate (r : CompRule) (other_cards : List CompCard) : ℚ :=
  other_cards.foldl (compCardFold r) 0

/-- `_calculate_rule_score`: `tier_rate - best_competing_rate`.  (The
`base_score = tier_rate` assignment in the source is dead.) -/
def calculate_rule_score (r : CompRule) (tier_rate : ℚ) (other_cards : List CompCard) : ℚ :=
  tier_rate - best_competing_rate r other_cards

/-- The rates one competing card offers for the rule's combination, as the
claim describes them: the (single) static or rotating branch value, or the
rates of the matching dynamic active rules. -/
def cardOfferList (r : CompRule) (c : CompCard) : List ℚ :=
  if c.rewards_structure = some "static" then [staticOffer r c]
  else if c.rewards_structure = some "rotating" then [rotatingOffer r c]
  else if c.rewards_structure = some "dynamic" then
    (c.active_rules.filter (compEntryMatches r)).map CompActiveRule.rate
  else []

/-- Modelled from the claim: the rates of the candidate rules that match the
context, in candidate order (rules whose rate `float()` rejects carry no
rate). -/
def matchingRatesOf (rules : List RewardRule) (ctx : TransactionContext) : List ℚ :=
  rules.filterMap fun r =>
    match parseRate (r.rate.getD (RateVal.num 0)) with
    | some q => if ruleMatches r ctx then some q else none
    | none => none

/-- Modelled from the claim: `max(baseRate, highest matching candidate
rate)`, the base rate alone when nothing matches. -/
def specEffectiveRate (card : Card) (ctx : TransactionContext) (month : Nat) : ℚ :=
  (matchingRatesOf (gatherRules card month) ctx).foldl max (parseBaseRate card)

/-- A rule the evaluation may use at all per the claim: its rate parses and
is non-negative. -/
def rateUsable (r : RewardRule) : Bool :=
  match parseRate (r.rate.getD (RateVal.num 0)) with
  | some q => decide (0 ≤ q)
  | none => false

/-- The per-card state change both ranking operations leave behind: only
dynamic cards change, and only by the entry-rate copy of `mutateEntry`. -/
def cardAfterEval (card : Card) : Card :=
  if card.reward_structure_type.getD "Static" = "Dynamic" then
    { card with
       dynamic_rewards :=
         { card.dynamic_rewards with
            active_rules := card.dynamic_rewards.active_rules.map mutateEntry } }
  else card

/-- A nested active-rule entry already carries the entry-level rate inside
its rule dict; such entries are fixed points of the rate copy. -/
def entryRateSynced : ActiveEntry → Bool
  | ActiveEntry.nested _ r v => decide (r.rate = some v)
  | _ => true

/-- The scenario list `get_best_overall_reward_scenarios` accumulates before
sorting, in generation order. -/
def allGenScenarios (cards : List Card) (month : Nat) : List Scenario :=
  cards.foldl (fun acc c => acc ++ genCardScenarios c (gatherRules c month)) []

/-- A context naming only the category `Dining` (Scenario A of the spec). -/
def demoCtxDining : TransactionContext :=
  { category_id := some "Dining" }

/-- A context naming only the category `Gas`. -/
def demoCtxGas : TransactionContext :=
  { category_id := some "Gas" }

/-- Card X of Scenario A: base rate 1.0 and one static rule paying 4.0 on
the `Dining` category. -/
def demoCardA : Card :=
  { id := some "card-a"
    card_name := some "Card A"
    bank := some "Bank A"
    base_rate := some (RateVal.num 1)
    reward_structure_type := some "Static"
    static_rewards := [{ category := [CondItem.plain "Dining"], rate := some (RateVal.num 4) }] }

/-- A rotating rule scoped to months 1-3 (the P4 example). -/
def demoRotRule : RewardRule :=
  { category := [CondItem.plain "Gas"]
    rate := some (RateVal.num 5)
    is_rotating := true
    months := [1, 2, 3] }

/-- A monthly rotating card carrying `demoRotRule`. -/
def demoRotCard : Card :=
  { id := some "card-rot"
    base_rate := some (RateVal.num 1)
    reward_structure_type := some "Rotating"
    rotation_period := some "Monthly"
    rotating_rules := [demoRotRule] }

/-- A dynamic card whose active-rule entry's nested rule does not yet carry
the entry-level rate, so evaluating it rewrites the card record. -/
def demoMutCard : Card :=
  { id := some "card-dyn"
    base_rate := some (RateVal.num 1)
    reward_structure_type := some "Dynamic"
    dynamic_rewards :=
      { active_rules :=
          [ActiveEntry.nested none { category := [CondItem.plain "Streaming"] }
             (RateVal.num 5)] } }

/-- A card whose only matching rule ties with the base rate: base 2.0 and a
static `Dining` rule also paying 2.0. -/
def demoTieCard : Card :=
  { id := some "card-tie"
    base_rate := some (RateVal.num 2)
    reward_structure_type := some "Static"
    static_rewards := [{ category := [CondItem.plain "Dining"], rate := some (RateVal.num 2) }] }

/-- A static card with a malformed-rate rule, a negative-rate rule and a
usable rule, for the skipping claim. -/
def demoSkipRules : List RewardRule :=
  [ { category := [CondItem.plain "Dining"], rate := some RateVal.malformed }
  , { category := [CondItem.plain "Dining"], rate := some (RateVal.num (-1/2)) }
  , { category := [CondItem.plain "Dining"], rate := some (RateVal.num 3) } ]

/-- A dynamic-structure card as `optimize_dynamic_rewards` recognises one:
its nested `reward_structure.type` is `'dynamic'`, and it is already in the
normal form the loader guarantees. -/
def demoOptCard : Card :=
  { id := some "card-opt"
    base_rate := some (RateVal.num 1)
    reward_structure := some { rstype := some "dynamic" }
    dynamic_rewards :=
      { active_rules := [ActiveEntry.flat { rate := some (RateVal.num 3) }] } }

/-- A rule for the optimiser score: category `Gas`, no payee, no payment
method. -/
def demoCompRule : CompRule :=
  { category := some "Gas" }

/-- A static competing card paying 3.0 on `Gas` and 1.0 by default. -/
def demoCompCard : CompCard :=
  { rewards_structure := some "static"
    rewards_cats := [("Gas", 3)]
    rewards_default := 1 }

/-! Generic lemmas about folding `max` over rationals. -/

theorem foldl_max_init_le : ∀ (l : List ℚ) (a : ℚ), a ≤ l.foldl max a := by
  intro l
  induction l with
  | nil => intro a; simp
  | cons h t ih =>
    intro a
    calc a ≤ max a h := le_max_left a h
    _ ≤ t.foldl max (max a h) := ih (max a h)
    _ = (h :: t).foldl max a := rfl

theorem le_foldl_max : ∀ (l : List ℚ) (a x : ℚ), x ∈ l → x ≤ l.foldl max a := by
  intro l
  induction l with
  | nil => intro a x hx; cases hx
  | cons h t ih =>
    intro a x hx
    rcases List.mem_cons.mp hx with rfl | hx
    · calc x ≤ max a x := le_max_right a x
      _ ≤ t.foldl max (max a x) := foldl_max_init_le t (max a x)
    · exact ih (max a h) x hx

theorem foldl_max_cases : ∀ (l : List ℚ) (a : ℚ), l.foldl max a = a ∨ l.foldl max a ∈ l := by
  intro l
  induction l with
  | nil => intro a; exact Or.inl rfl
  | cons h t ih =>
    intro a
    rcases ih (max a h) with heq | hmem
    · rcases max_choice a h with hc | hc
      · exact Or.inl (by rw [List.foldl_cons, heq, hc])
      · exact Or.inr (by rw [List.foldl_cons, heq, hc]; exact List.mem_cons_self h t)
    · exact Or.inr (List.mem_cons_of_mem h hmem)

theorem max_foldl_max : ∀ (l : List ℚ) (a b : ℚ), max a (l.foldl max b) = l.foldl max (max a b) := by
  intro l
  induction l with
  | nil => intro a b; rfl
  | cons h t ih =>
    intro a b
    have : max a (max b h) = max (max a b) h := (max_assoc a b h).symm
    calc max a ((h :: t).foldl max b) = max a (t.foldl max (max b h)) := rfl
    _ = t.foldl max (max a (max b h)) := ih a (max b h)
    _ = t.foldl max (max (max a b) h) := by rw [this]
    _ = (h :: t).foldl max (max a b) := rfl

theorem foldl_max_init_mono : ∀ (l : List ℚ) (a b : ℚ), a ≤ b → l.foldl max a ≤ l.foldl max b := by
  intro l
  induction l with
  | nil => intro a b hab; simpa using hab
  | cons h t ih =>
    intro a b hab
    exact ih (max a h) (max b h) (max_le_max hab le_rfl)

theorem ite_lt_eq_max (a b : ℚ) : (if a < b then b else a) = max a b := by
  by_cases h : a < b
  · simp [h, max_eq_right h.le]
  · simp [h, max_eq_left (not_lt.mp h)]

/-! Lemmas about the rule-evaluation loop. -/

theorem stepRule_best_le (ctx : TransactionContext) (s : EvalState) (r : RewardRule) :
    s.best ≤ (stepRule ctx s r).best := by
  cases hp : parseRate (r.rate.getD (RateVal.num 0)) with
  | none => simp [stepRule, hp]
  | some q =>
    cases hm : ruleMatches r ctx with
    | false => simp [stepRule, hp, hm]
    | true =>
      by_cases hlt : s.best < q
      · simp [stepRule, hp, hm, hlt, le_of_lt hlt]
      · simp [stepRule, hp, hm, hlt]

theorem stepRule_best_max (ctx : TransactionContext) (s : EvalState) (r : RewardRule)
    (q : ℚ) (hp : parseRate (r.rate.getD (RateVal.num 0)) = some q)
    (hm : ruleMatches r ctx = true) :
    (stepRule ctx s r).best = max s.best q := by
  rw [← ite_lt_eq_max]
  by_cases hlt : s.best < q
  · simp [stepRule, hp, hm, hlt]
  · simp [stepRule, hp, hm, hlt]

theorem foldl_stepRule_best (ctx : TransactionContext) :
    ∀ (rules : List RewardRule) (s : EvalState),
      (rules.foldl (stepRule ctx) s).best = (matchingRatesOf rules ctx).foldl max s.best := by
  intro rules
  induction rules with
  | nil => intro s; simp [matchingRatesOf]
  | cons r t ih =>
    intro s
    cases hp : parseRate (r.rate.getD (RateVal.num 0)) with
    | none =>
      have h1 : stepRule ctx s r = s := by simp [stepRule, hp]
      have h2 : matchingRatesOf (r :: t) ctx = matchingRatesOf t ctx := by
        simp [matchingRatesOf, List.filterMap_cons, hp]
      rw [List.foldl_cons, h1, h2, ih s]
    | some q =>
      cases hm : ruleMatches r ctx with
      | false =>
        have h1 : stepRule ctx s r = s := by simp [stepRule, hp, hm]
        have h2 : matchingRatesOf (r :: t) ctx = matchingRatesOf t ctx := by
          simp [matchingRatesOf, List.filterMap_cons, hp, hm]
        rw [List.foldl_cons, h1, h2, ih s]
      | true =>
        have h2 : matchingRatesOf (r :: t) ctx = q :: matchingRatesOf t ctx := by
          simp [matchingRatesOf, List.filterMap_cons, hp, hm]
        rw [List.foldl_cons, h2, List.foldl_cons, ih (stepRule ctx s r),
          stepRule_best_max ctx s r q hp hm]

theorem evalRules_rate (base : ℚ) (rules : List RewardRule) (ctx : TransactionContext)
    (h : (-1 : ℚ) ≤ base) :
    (evalRules base rules ctx).1 = (matchingRatesOf rules ctx).foldl max base := by
  have hinit : (({} : EvalState)).best = -1 := rfl
  simp only [evalRules]
  rw [foldl_stepRule_best, hinit, max_foldl_max, max_eq_left h]

/-! Lemmas about the stable descending sort. -/

instance : IsTotal Scenario rateGE := ⟨fun a b => le_total b.rate a.rate⟩

instance : IsTrans Scenario rateGE := ⟨fun _ _ _ hab hbc => le_trans hbc hab⟩

theorem sorted_sortByRateDesc (l : List Scenario) : List.Sorted rateGE (sortByRateDesc l) :=
  List.sorted_insertionSort rateGE l

theorem mem_sortByRateDesc {l : List Scenario} {x : Scenario} :
    x ∈ sortByRateDesc l ↔ x ∈ l :=
  List.mem_insertionSort rateGE

theorem filter_orderedInsert_rate_eq (q : ℚ) (x : Scenario) (hx : x.rate = q) :
    ∀ l : List Scenario,
      (List.orderedInsert rateGE x l).filter (fun s => decide (s.rate = q)) =
        x :: l.filter (fun s => decide (s.rate = q)) := by
  intro l
  induction l with
  | nil => simp [hx]
  | cons y ys ih =>
    by_cases h : rateGE x y
    · rw [List.orderedInsert_of_le rateGE ys h]
      simp [hx]
    · have hlt : x.rate < y.rate := lt_of_not_le h
      have hyq : ¬(y.rate = q) := fun hh => absurd (hx ▸ hh : y.rate = x.rate).symm (ne_of_lt hlt)
      simp only [List.orderedInsert, if_neg h]
      rw [List.filter_cons_of_neg (by simpa using hyq), ih,
        List.filter_cons_of_neg (by simpa using hyq)]

theorem filter_orderedInsert_rate_ne (q : ℚ) (x : Scenario) (hx : ¬(x.rate = q)) :
    ∀ l : List Scenario,
      (List.orderedInsert rateGE x l).filter (fun s => decide (s.rate = q)) =
        l.filter (fun s => decide (s.rate = q)) := by
  intro l
  induction l with
  | nil => simp [hx]
  | cons y ys ih =>
    by_cases h : rateGE x y
    · rw [List.orderedInsert_of_le rateGE ys h]
      rw [List.filter_cons_of_neg (by simpa using hx)]
    · simp only [List.orderedInsert, if_neg h]
      by_cases hy : y.rate = q
      · rw [List.filter_cons_of_pos (by simpa using hy), ih,
          List.filter_cons_of_pos (by simpa using hy)]
      · rw [List.filter_cons_of_neg (by simpa using hy), ih,
          List.filter_cons_of_neg (by simpa using hy)]

theorem filter_sortByRateDesc (q : ℚ) :
    ∀ l : List Scenario,
      (sortByRateDesc l).filter (fun s => decide (s.rate = q)) =
        l.filter (fun s => decide (s.rate = q)) := by
  intro l
  induction l with
  | nil => rfl
  | cons x xs ih =>
    show (List.orderedInsert rateGE x (sortByRateDesc xs)).filter _ = _
    by_cases hx : x.rate = q
    · rw [filter_orderedInsert_rate_eq q x hx, ih, List.filter_cons_of_pos (by simpa using hx)]
    · rw [filter_orderedInsert_rate_ne q x hx, ih, List.filter_cons_of_neg (by simpa using hx)]

/-! Structural lemmas about candidate gathering and the card-list state. -/

theorem gatherRulesSt_snd (card : Card) (month : Nat) :
    (gatherRulesSt card month).2 = cardAfterEval card := by
  by_cases h1 : card.reward_structure_type.getD "Static" = "Static"
  · simp [gatherRulesSt, cardAfterEval, h1]
  · by_cases h2 : card.reward_structure_type.getD "Static" = "Rotating"
    · simp [gatherRulesSt, cardAfterEval, h1, h2]
    · by_cases h3 : card.reward_structure_type.getD "Static" = "Dynamic"
      · simp [gatherRulesSt, cardAfterEval, h1, h2, h3]
      · simp [gatherRulesSt, cardAfterEval, h1, h2, h3]

theorem fb_fold (ctx : TransactionContext) (month : Nat) :
    ∀ (cards : List Card) (acc : List Scenario × List Card),
      cards.foldl (fbStep ctx month) acc =
        (acc.1 ++ cards.map (fun c => evalCardScenario c (gatherRules c month) ctx),
         acc.2 ++ cards.map cardAfterEval) := by
  intro cards
  induction cards with
  | nil => intro acc; simp
  | cons c cs ih =>
    intro acc
    have hstep : fbStep ctx month acc c =
        (acc.1 ++ [evalCardScenario c (gatherRules c month) ctx],
         acc.2 ++ [cardAfterEval c]) := by
      show (acc.1 ++ [evalCardScenario c (gatherRulesSt c month).1 ctx],
            acc.2 ++ [(gatherRulesSt c month).2]) = _
      rw [gatherRulesSt_snd]
      rfl
    rw [List.foldl_cons, hstep, ih]
    simp [List.append_assoc]

theorem find_best_results (cards : List Card) (ctx : TransactionContext) (month : Nat) :
    (find_best_card_for_transaction cards ctx month).1 =
      sortByRateDesc (cards.map (fun c => evalCardScenario c (gatherRules c month) ctx)) := by
  show sortByRateDesc (cards.foldl (fbStep ctx month) ([], [])).1 = _
  rw [fb_fold]
  rfl

theorem find_best_state (cards : List Card) (ctx : TransactionContext) (month : Nat) :
    (find_best_card_for_transaction cards ctx month).2 = cards.map cardAfterEval := by
  show (cards.foldl (fbStep ctx month) ([], [])).2 = _
  rw [fb_fold]
  rfl

theorem allGen_acc (month : Nat) :
    ∀ (cards : List Card) (acc : List Scenario),
      cards.foldl (fun a c => a ++ genCardScenarios c (gatherRules c month)) acc =
        acc ++ allGenScenarios cards month := by
  intro cards
  induction cards with
  | nil => intro acc; simp [allGenScenarios]
  | cons c cs ih =>
    intro acc
    have hc : allGenScenarios (c :: cs) month =
        genCardScenarios c (gatherRules c month) ++ allGenScenarios cs month := by
      show (c :: cs).foldl (fun a x => a ++ genCardScenarios x (gatherRules x month)) [] = _
      rw [List.foldl_cons, ih]
      simp
    rw [List.foldl_cons, ih, hc, List.append_assoc]

theorem en_fold (month : Nat) :
    ∀ (cards : List Card) (acc : List Scenario × List Card),
      cards.foldl (enStep month) acc =
        (acc.1 ++ allGenScenarios cards month, acc.2 ++ cards.map cardAfterEval) := by
  intro cards
  induction cards with
  | nil => intro acc; simp [allGenScenarios]
  | cons c cs ih =>
    intro acc
    have hstep : enStep month acc c =
        (acc.1 ++ genCardScenarios c (gatherRules c month), acc.2 ++ [cardAfterEval c]) := by
      show (acc.1 ++ genCardScenarios c (gatherRulesSt c month).1,
            acc.2 ++ [(gatherRulesSt c month).2]) = _
      rw [gatherRulesSt_snd]
      rfl
    have hc : allGenScenarios (c :: cs) month =
        genCardScenarios c (gatherRules c month) ++ allGenScenarios cs month := by
      show (c :: cs).foldl (fun a x => a ++ genCardScenarios x (gatherRules x month)) [] = _
      rw [List.foldl_cons, allGen_acc]
      simp
    rw [List.foldl_cons, hstep, ih, hc]
    simp [List.append_assoc]

theorem enumerate_results (cards : List Card) (month : Nat) :
    (get_best_overall_reward_scenarios cards month).1 =
      sortByRateDesc (allGenScenarios cards month) := by
  show sortByRateDesc (cards.foldl (enStep month) ([], [])).1 = _
  rw [en_fold]
  rfl

theorem enumerate_state (cards : List Card) (month : Nat) :
    (get_best_overall_reward_scenarios cards month).2 = cards.map cardAfterEval := by
  show (cards.foldl (enStep month) ([], [])).2 = _
  rw [en_fold]
  rfl

theorem replaceFirst_find_self :
    ∀ (l : List Card) (p : Card → Bool) (c : Card), l.find? p = some c → replaceFirst p c l = l := by
  intro l
  induction l with
  | nil => intro p c h; cases h
  | cons x xs ih =>
    intro p c h
    cases hx : p x with
    | true =>
      rw [List.find?_cons_of_pos _ hx] at h
      have : c = x := by injection h with h2; exact h2.symm
      subst this
      simp [replaceFirst, hx]
    | false =>
      rw [List.find?_cons_of_neg _ (by simp [hx])] at h
      simp [replaceFirst, hx, ih p c h]

/-! The three-way condition test, characterised. -/

theorem condMatch_iff (ruleList : List String) (ctxField : Option String) :
    condMatch ruleList ctxField = true ↔
      (ruleList = [] ∨ ∃ c, ctxField = some c ∧ c ∈ ruleList) := by
  cases ctxField with
  | none => simp [condMatch]
  | some v =>
    simp only [condMatch, Bool.or_eq_true, List.isEmpty_iff]
    constructor
    · rintro (h | h)
      · exact Or.inl h
      · exact Or.inr ⟨v, rfl, by simpa using h⟩
    · rintro (h | ⟨c, hc, hmem⟩)
      · exact Or.inl h
      · injection hc with hc
        subst hc
        exact Or.inr (by simpa using hmem)

/-! Lemmas for the malformed/negative-rate skipping claim. -/

theorem rateUsable_iff (r : RewardRule) :
    rateUsable r = true ↔
      ∃ q, parseRate (r.rate.getD (RateVal.num 0)) = some q ∧ 0 ≤ q := by
  cases hp : parseRate (r.rate.getD (RateVal.num 0)) with
  | none => simp [rateUsable, hp]
  | some q => simp [rateUsable, hp]

/-- Relation between the loop state over all rules and over the usable rules
only: either the full-state best has reached a non-negative matched rate and
the two states agree exactly, or both bests are still negative. -/
def evalSkipInv (s t : EvalState) : Prop :=
  (0 ≤ s.best ∧ s = t) ∨ (s.best < 0 ∧ t.best < 0)

theorem stepRule_inv_usable (ctx : TransactionContext) (r : RewardRule)
    (hu : rateUsable r = true) (s t : EvalState) (h : evalSkipInv s t) :
    evalSkipInv (stepRule ctx s r) (stepRule ctx t r) := by
  obtain ⟨q, hp, hq⟩ := (rateUsable_iff r).mp hu
  rcases h with ⟨hb, rfl⟩ | ⟨hs, ht⟩
  · exact Or.inl ⟨le_trans hb (stepRule_best_le ctx s r), rfl⟩
  · cases hm : ruleMatches r ctx with
    | false =>
      have h1 : stepRule ctx s r = s := by simp [stepRule, hp, hm]
      have h2 : stepRule ctx t r = t := by simp [stepRule, hp, hm]
      rw [h1, h2]
      exact Or.inr ⟨hs, ht⟩
    | true =>
      have h1 : stepRule ctx s r =
          ⟨q, ⟨extractNames r.category, extractNames r.payee, extractNames r.paymentMethod⟩⟩ := by
        simp [stepRule, hp, hm, lt_of_lt_of_le hs hq]
      have h2 : stepRule ctx t r =
          ⟨q, ⟨extractNames r.category, extractNames r.payee, extractNames r.paymentMethod⟩⟩ := by
        simp [stepRule, hp, hm, lt_of_lt_of_le ht hq]
      rw [h1, h2]
      exact Or.inl ⟨by simpa using hq, rfl⟩

theorem stepRule_inv_unusable (ctx : TransactionContext) (r : RewardRule)
    (hu : rateUsable r = false) (s t : EvalState) (h : evalSkipInv s t) :
    evalSkipInv (stepRule ctx s r) t := by
  cases hp : parseRate (r.rate.getD (RateVal.num 0)) with
  | none =>
    have h1 : stepRule ctx s r = s := by simp [stepRule, hp]
    rw [h1]; exact h
  | some q =>
    have hqneg : q < 0 := by
      have hd : decide (0 ≤ q) = false := by simpa [rateUsable, hp] using hu
      exact not_le.mp (of_decide_eq_false hd)
    cases hm : ruleMatches r ctx with
    | false =>
      have h1 : stepRule ctx s r = s := by simp [stepRule, hp, hm]
      rw [h1]; exact h
    | true =>
      by_cases hlt : s.best < q
      · have h1 : stepRule ctx s r =
            ⟨q, ⟨extractNames r.category, extractNames r.payee, extractNames r.paymentMethod⟩⟩ := by
          simp [stepRule, hp, hm, hlt]
        rcases h with ⟨hb, rfl⟩ | ⟨_, ht⟩
        · exfalso; linarith
        · rw [h1]
          exact Or.inr ⟨by simpa using hqneg, ht⟩
      · have h1 : stepRule ctx s r = s := by simp [stepRule, hp, hm, hlt]
        rw [h1]; exact h

theorem foldl_skip_inv (ctx : TransactionContext) :
    ∀ (rules : List RewardRule) (s t : EvalState), evalSkipInv s t →
      evalSkipInv (rules.foldl (stepRule ctx) s)
        ((rules.filter rateUsable).foldl (stepRule ctx) t) := by
  intro rules
  induction rules with
  | nil => intro s t h; simpa using h
  | cons r rs ih =>
    intro s t h
    cases hu : rateUsable r with
    | true =>
      rw [List.filter_cons_of_pos (by simpa using hu), List.foldl_cons, List.foldl_cons]
      exact ih _ _ (stepRule_inv_usable ctx r hu s t h)
    | false =>
      rw [List.filter_cons_of_neg (by simp [hu]), List.foldl_cons]
      exact ih _ _ (stepRule_inv_unusable ctx r hu s t h)

/-! Lemma for the tie-breaking behaviour of the condition lists. -/

theorem foldl_below_base (ctx : TransactionContext) (base : ℚ) :
    ∀ (rules : List RewardRule),
      (∀ r ∈ rules, ∀ q, parseRate (r.rate.getD (RateVal.num 0)) = some q →
        ruleMatches r ctx = true → q < base) →
      ∀ s : EvalState, (s.conds = ({} : CondLists) ∨ s.best < base) →
        ((rules.foldl (stepRule ctx) s).conds = ({} : CondLists) ∨
          (rules.foldl (stepRule ctx) s).best < base) := by
  intro rules
  induction rules with
  | nil => intro _ s h; simpa using h
  | cons r rs ih =>
    intro hall s h
    rw [List.foldl_cons]
    apply ih (fun x hx => hall x (List.mem_cons_of_mem r hx))
    cases hp : parseRate (r.rate.getD (RateVal.num 0)) with
    | none => simpa [stepRule, hp] using h
    | some q =>
      cases hm : ruleMatches r ctx with
      | false => simpa [stepRule, hp, hm] using h
      | true =>
        by_cases hlt : s.best < q
        · right
          have h1 : stepRule ctx s r =
              ⟨q, ⟨extractNames r.category, extractNames r.payee, extractNames r.paymentMethod⟩⟩ := by
            simp [stepRule, hp, hm, hlt]
          rw [h1]
          exact hall r (List.mem_cons_self r rs) q hp hm
        · have h1 : stepRule ctx s r = s := by simp [stepRule, hp, hm, hlt]
          rw [h1]; exact h

/-! Lemmas characterising the competing-rate fold of the optimiser. -/

theorem dynFold_eq (r : CompRule) :
    ∀ (entries : List CompActiveRule) (acc : ℚ),
      entries.foldl (fun a e => if compEntryMatches r e then max a e.rate else a) acc =
        ((entries.filter (compEntryMatches r)).map CompActiveRule.rate).foldl max acc := by
  intro entries
  induction entries with
  | nil => intro acc; rfl
  | cons e es ih =>
    intro acc
    cases he : compEntryMatches r e with
    | true =>
      rw [List.filter_cons_of_pos (by simpa using he)]
      simp only [List.foldl_cons, List.map_cons, he, if_true]
      exact ih (max acc e.rate)
    | false =>
      rw [List.filter_cons_of_neg (by simp [he])]
      simp only [List.foldl_cons, he, if_false]
      exact ih acc

theorem compCardFold_eq (r : CompRule) (acc : ℚ) (c : CompCard) :
    compCardFold r acc c = (cardOfferList r c).foldl max acc := by
  by_cases h1 : c.rewards_structure = some "static"
  · simp [compCardFold, cardOfferList, h1]
  · by_cases h2 : c.rewards_structure = some "rotating"
    · simp [compCardFold, cardOfferList, h1, h2]
    · by_cases h3 : c.rewards_structure = some "dynamic"
      · simp [compCardFold, cardOfferList, h1, h2, h3, dynFold_eq]
      · simp [compCardFold, cardOfferList, h1, h2, h3]

theorem compFold_init_le (r : CompRule) :
    ∀ (others : List CompCard) (a : ℚ), a ≤ others.foldl (compCardFold r) a := by
  intro others
  induction others with
  | nil => intro a; simp
  | cons c cs ih =>
    intro a
    calc a ≤ compCardFold r a c := by rw [compCardFold_eq]; exact foldl_max_init_le _ a
    _ ≤ cs.foldl (compCardFold r) (compCardFold r a c) := ih _

theorem compFold_upper (r : CompRule) :
    ∀ (others : List CompCard) (a : ℚ) (c : CompCard), c ∈ others →
      ∀ v ∈ cardOfferList r c, v ≤ others.foldl (compCardFold r) a := by
  intro others
  induction others with
  | nil => intro a c hc; cases hc
  | cons c0 cs ih =>
    intro a c hc v hv
    rcases List.mem_cons.mp hc with rfl | hc
    · calc v ≤ (cardOfferList r c).foldl max a := le_foldl_max _ a v hv
      _ = compCardFold r a c := (compCardFold_eq r a c).symm
      _ ≤ cs.foldl (compCardFold r) (compCardFold r a c) := compFold_init_le r cs _
    · exact ih (compCardFold r a c0) c hc v hv

theorem compFold_attain (r : CompRule) :
    ∀ (others : List CompCard) (a : ℚ),
      others.foldl (compCardFold r) a = a ∨
        ∃ c ∈ others, others.foldl (compCardFold r) a ∈ cardOfferList r c := by
  intro others
  induction others with
  | nil => intro a; exact Or.inl rfl
  | cons c0 cs ih =>
    intro a
    rcases ih (compCardFold r a c0) with heq | ⟨c, hc, hmem⟩
    · have h2 : (c0 :: cs).foldl (compCardFold r) a = compCardFold r a c0 := heq
      rcases foldl_max_cases (cardOfferList r c0) a with h3 | h3
      · exact Or.inl (by rw [h2, compCardFold_eq, h3])
      · exact Or.inr ⟨c0, List.mem_cons_self c0 cs,
          by rw [h2, compCardFold_eq]; exact h3⟩
    · exact Or.inr ⟨c, List.mem_cons_of_mem c0 hc, hmem⟩

/-! Lemmas about the scenario generation of the browse view. -/

theorem ruleScenario_isSome_iff (base : ℚ) (info : CardInfo) (r : RewardRule) :
    (ruleScenario base info r).isSome = true ↔
      ∃ q, parseRate (r.rate.getD (RateVal.num 0)) = some q ∧ 0 < q ∧
        ¬(extractNames r.category = [] ∧ extractNames r.payee = [] ∧
          extractNames r.paymentMethod = [] ∧ q = base) := by
  cases hp : parseRate (r.rate.getD (RateVal.num 0)) with
  | none => simp [ruleScenario, hp]
  | some q =>
    by_cases hq : q ≤ 0
    · simp only [ruleScenario, hp, if_pos hq, Option.isSome_none]
      constructor
      · intro h; cases h
      · rintro ⟨q2, hq2, h0, _⟩
        injection hq2 with hq2
        subst hq2
        exact absurd h0 (not_lt.mpr hq)
    · by_cases hg : extractNames r.category = [] ∧ extractNames r.payee = [] ∧
          extractNames r.paymentMethod = [] ∧ q = base
      · simp only [ruleScenario, hp, if_neg hq, if_pos hg, Option.isSome_none]
        constructor
        · intro h; cases h
        · rintro ⟨q2, hq2, _, hng⟩
          injection hq2 with hq2
          subst hq2
          exact absurd hg hng
      · simp only [ruleScenario, hp, if_neg hq, if_neg hg, Option.isSome_some, true_iff]
        exact ⟨q, rfl, lt_of_not_le hq, hg⟩

theorem ruleScenario_ne_base (card : Card) (info : CardInfo) (r : RewardRule) (s : Scenario)
    (hrs : ruleScenario (parseBaseRate card) info r = some s) :
    ¬(s = baseScenario card) := by
  cases hp : parseRate (r.rate.getD (RateVal.num 0)) with
  | none => simp [ruleScenario, hp] at hrs
  | some q =>
    simp only [ruleScenario, hp] at hrs
    by_cases hq : q ≤ 0
    · simp [if_pos hq] at hrs
    · rw [if_neg hq] at hrs
      by_cases hg : extractNames r.category = [] ∧ extractNames r.payee = [] ∧
          extractNames r.paymentMethod = [] ∧ q = parseBaseRate card
      · simp [if_pos hg] at hrs
      · rw [if_neg hg] at hrs
        injection hrs with hrs
        intro hcontra
        rw [← hrs] at hcontra
        simp only [baseScenario, Scenario.mk.injEq] at hcontra
        obtain ⟨_, hrate, _, hcat, hpay, hpm⟩ := hcontra
        exact hg ⟨hcat, hpay, hpm, hrate⟩

theorem genCard_count_base (card : Card) (rules : List RewardRule) :
    (genCardScenarios card rules).countP (fun s => decide (s = baseScenario card)) =
      if 0 < parseBaseRate card then 1 else 0 := by
  unfold genCardScenarios
  rw [List.countP_append]
  have hrule : (rules.filterMap (ruleScenario (parseBaseRate card) (cardInfoOf card))).countP
      (fun s => decide (s = baseScenario card)) = 0 := by
    rw [List.countP_eq_zero]
    intro s hs
    obtain ⟨r, _, hrs⟩ := List.mem_filterMap.mp hs
    simpa using ruleScenario_ne_base card (cardInfoOf card) r s hrs
  rw [hrule]
  by_cases hb : 0 < parseBaseRate card
  · simp [hb]
  · simp [hb]

/-! The claims. -/

/-- C2: a rule matches a context if and only if, for each of the three
condition sets (category, payee, paymentMethod), the set is empty or the
corresponding context field is present and a member of the set; hence a
rule with all three sets empty matches every context (including one with no
fields supplied), and a context lacking a field never satisfies a rule
whose corresponding set is non-empty. -/
theorem claim_C2_rule_matcher (r : RewardRule) (ctx : TransactionContext) :
    (ruleMatches r ctx = true ↔
      ((extractNames r.category = [] ∨
          ∃ c, ctx.category_id = some c ∧ c ∈ extractNames r.category)
        ∧ (extractNames r.payee = [] ∨
          ∃ c, ctx.payee_id = some c ∧ c ∈ extractNames r.payee)
        ∧ (extractNames r.paymentMethod = [] ∨
          ∃ c, ctx.payment_method_id = some c ∧ c ∈ extractNames r.paymentMethod)))
    ∧ (extractNames r.category = [] → extractNames r.payee = [] →
        extractNames r.paymentMethod = [] → ruleMatches r ctx = true)
    ∧ (extractNames r.category ≠ [] → ctx.category_id = none → ruleMatches r ctx = false)
    ∧ (extractNames r.payee ≠ [] → ctx.payee_id = none → ruleMatches r ctx = false)
    ∧ (extractNames r.paymentMethod ≠ [] → ctx.payment_method_id = none →
        ruleMatches r ctx = false) := by
  have hiff : ruleMatches r ctx = true ↔
      ((extractNames r.category = [] ∨
          ∃ c, ctx.category_id = some c ∧ c ∈ extractNames r.category)
        ∧ (extractNames r.payee = [] ∨
          ∃ c, ctx.payee_id = some c ∧ c ∈ extractNames r.payee)
        ∧ (extractNames r.paymentMethod = [] ∨
          ∃ c, ctx.payment_method_id = some c ∧ c ∈ extractNames r.paymentMethod)) := by
    unfold ruleMatches
    simp only [Bool.and_eq_true]
    rw [condMatch_iff, condMatch_iff, condMatch_iff]
    tauto
  refine ⟨hiff, ?_, ?_, ?_, ?_⟩
  · intro h1 h2 h3
    exact hiff.mpr ⟨Or.inl h1, Or.inl h2, Or.inl h3⟩
  · intro hne hnone
    cases hmb : ruleMatches r ctx with
    | false => rfl
    | true =>
      obtain ⟨hc, _, _⟩ := hiff.mp hmb
      rcases hc with h | ⟨c, hc1, _⟩
      · exact absurd h hne
      · rw [hnone] at hc1; cases hc1
  · intro hne hnone
    cases hmb : ruleMatches r ctx with
    | false => rfl
    | true =>
      obtain ⟨_, hc, _⟩ := hiff.mp hmb
      rcases hc with h | ⟨c, hc1, _⟩
      · exact absurd h hne
      · rw [hnone] at hc1; cases hc1
  · intro hne hnone
    cases hmb : ruleMatches r ctx with
    | false => rfl
    | true =>
      obtain ⟨_, _, hc⟩ := hiff.mp hmb
      rcases hc with h | ⟨c, hc1, _⟩
      · exact absurd h hne
      · rw [hnone] at hc1; cases hc1

/-- Witness for C2: a rule restricted to category `Dining` does not match a
context that supplies no category at all. -/
theorem claim_C2_witness :
    ruleMatches { category := [CondItem.plain "Dining"] } ({} : TransactionContext) = false :=
  (claim_C2_rule_matcher { category := [CondItem.plain "Dining"] } {}).2.2.1
    (by decide) rfl

/-- C3: for a rotating card, a rule is in the candidate set for the current
date if and only if its `is_rotating` flag is false, or the rotation period
is Monthly and the current month is in `rule.months`, or the rotation
period is Quarterly and the current quarter `(month - 1) / 3 + 1` is in
`rule.quarters`. -/
theorem claim_C3_period_gating (card : Card) (r : RewardRule) (month : Nat)
    (hrt : card.reward_structure_type.getD "Static" = "Rotating")
    (hmem : r ∈ card.rotating_rules) :
    r ∈ gatherRules card month ↔
      r.is_rotating = false
      ∨ (card.rotation_period.getD "Quarterly" = "Monthly" ∧ month ∈ r.months)
      ∨ (card.rotation_period.getD "Quarterly" = "Quarterly" ∧
          quarterOf month ∈ r.quarters) := by
  have hne : ¬(card.reward_structure_type.getD "Static" = "Static") := by
    rw [hrt]; decide
  simp only [gatherRules, gatherRulesSt, if_neg hne, if_pos hrt]
  rw [List.mem_filter]
  simp only [hmem, true_and]
  cases hrot : r.is_rotating with
  | false => simp [hrot]
  | true =>
    by_cases hper : card.rotation_period.getD "Quarterly" = "Monthly"
    · simp [hrot, hper]
    · by_cases hper2 : card.rotation_period.getD "Quarterly" = "Quarterly"
      · simp [hrot, hper, hper2]
      · simp [hrot, hper, hper2]

/-- Witness for C3 (the P4 example): the monthly rule scoped to months
1-3 is a candidate in February and not in July. -/
theorem claim_C3_witness :
    demoRotRule ∈ gatherRules demoRotCard 2 ∧ demoRotRule ∉ gatherRules demoRotCard 7 := by
  constructor
  · exact (claim_C3_period_gating demoRotCard demoRotRule 2 (by decide)
      (List.mem_singleton.mpr rfl)).mpr (Or.inr (Or.inl ⟨by decide, by decide⟩))
  · intro hmem
    rcases (claim_C3_period_gating demoRotCard demoRotRule 7 (by decide)
        (List.mem_singleton.mpr rfl)).mp hmem with h1 | ⟨_, h2⟩ | ⟨h3, _⟩
    · exact absurd h1 (by decide)
    · exact absurd h2 (by decide)
    · exact absurd h3 (by decide)

/-- C1: the rate reported for a card equals `max(baseRate, best matching
candidate rate)` (the claim-side `specEffectiveRate`), and in particular is
never below the card's base rate, even when no rule matches; the evaluated
row is present in the ranking output.  The base rate is assumed
non-negative, as the data model's rate invariant provides. -/
theorem claim_C1_effective_rate (cards : List Card) (ctx : TransactionContext) (month : Nat)
    (card : Card) (hmem : card ∈ cards) (hbase : 0 ≤ parseBaseRate card) :
    evalCardScenario card (gatherRules card month) ctx ∈
        (find_best_card_for_transaction cards ctx month).1
    ∧ (evalCardScenario card (gatherRules card month) ctx).rate =
        specEffectiveRate card ctx month
    ∧ parseBaseRate card ≤ (evalCardScenario card (gatherRules card month) ctx).rate := by
  have hneg : (-1 : ℚ) ≤ parseBaseRate card := le_trans (by norm_num) hbase
  have hrate : (evalCardScenario card (gatherRules card month) ctx).rate =
      (evalRules (parseBaseRate card) (gatherRules card month) ctx).1 := rfl
  refine ⟨?_, ?_, ?_⟩
  · rw [find_best_results]
    exact mem_sortByRateDesc.mpr (List.mem_map_of_mem _ hmem)
  · rw [hrate, evalRules_rate _ _ _ hneg]
    rfl
  · rw [hrate, evalRules_rate _ _ _ hneg]
    exact foldl_max_init_le _ _

/-- Witness for C1: Scenario A's card, evaluated against a `Dining` context
in April. -/
theorem claim_C1_witness :
    evalCardScenario demoCardA (gatherRules demoCardA 4) demoCtxDining ∈
        (find_best_card_for_transaction [demoCardA] demoCtxDining 4).1
    ∧ (evalCardScenario demoCardA (gatherRules demoCardA 4) demoCtxDining).rate =
        specEffectiveRate demoCardA demoCtxDining 4
    ∧ parseBaseRate demoCardA ≤
        (evalCardScenario demoCardA (gatherRules demoCardA 4) demoCtxDining).rate :=
  claim_C1_effective_rate [demoCardA] demoCtxDining 4 demoCardA
    (List.mem_singleton.mpr rfl) (by decide)

/-- Counterexample to C5 as stated: on a card whose matching rule ties with
the base rate (both 2.0), the reported rate equals the base rate - so the
claim requires empty condition lists - yet the output carries the rule's
`Dining` category condition. -/
theorem claim_C5_counterexample :
    ((find_best_card_for_transaction [demoTieCard] demoCtxDining 1).1.headD {}).rate =
      parseBaseRate demoTieCard
    ∧ ((find_best_card_for_transaction [demoTieCard] demoCtxDining 1).1.headD {}).category =
      ["Dining"] := by
  constructor
  · decide
  · decide

/-- Helper for the amended C5: when every matching candidate rate is
strictly below the base rate (in particular when nothing matches), the
evaluation's condition lists are all empty. -/
theorem evalRules_conds_empty (base : ℚ) (rules : List RewardRule) (ctx : TransactionContext)
    (hall : ∀ r ∈ rules, ∀ q, parseRate (r.rate.getD (RateVal.num 0)) = some q →
      ruleMatches r ctx = true → q < base) :
    (evalRules base rules ctx).2 = ({} : CondLists) := by
  have hinv := foldl_below_base ctx base rules hall {} (Or.inl rfl)
  have h2 : (evalRules base rules ctx).2 =
      (if max base ((rules.foldl (stepRule ctx) ({} : EvalState)).best) = base ∧
          (rules.foldl (stepRule ctx) ({} : EvalState)).best < base then ({} : CondLists)
       else (rules.foldl (stepRule ctx) ({} : EvalState)).conds) := rfl
  rw [h2]
  rcases hinv with hc | hb
  · split_ifs with h
    · rfl
    · exact hc
  · rw [if_pos ⟨max_eq_left hb.le, hb⟩]

/-- C5 amended: the condition lists of a card's output row are empty
whenever every matching candidate rate is strictly below the base rate
(covering the no-match case); in a tie the source keeps the matching rule's
condition lists, as `claim_C5_counterexample` exhibits. -/
theorem claim_C5_amended (cards : List Card) (ctx : TransactionContext) (month : Nat)
    (card : Card) (hmem : card ∈ cards)
    (hall : ∀ r ∈ gatherRules card month, ∀ q,
      parseRate (r.rate.getD (RateVal.num 0)) = some q →
      ruleMatches r ctx = true → q < parseBaseRate card) :
    evalCardScenario card (gatherRules card month) ctx ∈
        (find_best_card_for_transaction cards ctx month).1
    ∧ (evalCardScenario card (gatherRules card month) ctx).category = []
    ∧ (evalCardScenario card (gatherRules card month) ctx).payee = []
    ∧ (evalCardScenario card (gatherRules card month) ctx).paymentMethod = [] := by
  have hconds := evalRules_conds_empty (parseBaseRate card) (gatherRules card month) ctx hall
  have hcat : (evalCardScenario card (gatherRules card month) ctx).category =
      ((evalRules (parseBaseRate card) (gatherRules card month) ctx).2).category := rfl
  have hpay : (evalCardScenario card (gatherRules card month) ctx).payee =
      ((evalRules (parseBaseRate card) (gatherRules card month) ctx).2).payee := rfl
  have hpm : (evalCardScenario card (gatherRules card month) ctx).paymentMethod =
      ((evalRules (parseBaseRate card) (gatherRules card month) ctx).2).paymentMethod := rfl
  refine ⟨?_, ?_, ?_, ?_⟩
  · rw [find_best_results]
    exact mem_sortByRateDesc.mpr (List.mem_map_of_mem _ hmem)
  · rw [hcat, hconds]
  · rw [hpay, hconds]
  · rw [hpm, hconds]

/-- Witness for the amended C5: Scenario A's card against a `Gas` context -
the `Dining` rule does not match, so the row reports base rate with empty
condition lists. -/
theorem claim_C5_witness :
    evalCardScenario demoCardA (gatherRules demoCardA 1) demoCtxGas ∈
        (find_best_card_for_transaction [demoCardA] demoCtxGas 1).1
    ∧ (evalCardScenario demoCardA (gatherRules demoCardA 1) demoCtxGas).category = []
    ∧ (evalCardScenario demoCardA (gatherRules demoCardA 1) demoCtxGas).payee = []
    ∧ (evalCardScenario demoCardA (gatherRules demoCardA 1) demoCtxGas).paymentMethod = [] :=
  claim_C5_amended [demoCardA] demoCtxGas 1 demoCardA (List.mem_singleton.mpr rfl)
    (by
      intro r hr q hp hm
      have hr2 : r = { category := [CondItem.plain "Dining"], rate := some (RateVal.num 4) } := by
        simpa [demoCardA, gatherRules, gatherRulesSt] using hr
      rw [hr2] at hm
      exact absurd hm (by decide))

/-- C7: rules whose rate fails to parse or is negative never influence the
reported rate or condition lists - evaluation over the usable rules alone
yields the same output - and a card all of whose rules are unusable still
returns its base rate with empty condition lists. -/
theorem claim_C7_skip_malformed (base : ℚ) (rules : List RewardRule) (ctx : TransactionContext)
    (hbase : 0 ≤ base) :
    evalRules base (rules.filter rateUsable) ctx = evalRules base rules ctx
    ∧ ((∀ r ∈ rules, rateUsable r = false) →
        evalRules base rules ctx = (base, ({} : CondLists))) := by
  have hinit : evalSkipInv ({} : EvalState) ({} : EvalState) :=
    Or.inr ⟨by show (-1 : ℚ) < 0; norm_num, by show (-1 : ℚ) < 0; norm_num⟩
  have hfold := foldl_skip_inv ctx rules {} {} hinit
  have e1 : evalRules base rules ctx =
      (max base ((rules.foldl (stepRule ctx) ({} : EvalState)).best),
       if max base ((rules.foldl (stepRule ctx) ({} : EvalState)).best) = base ∧
          (rules.foldl (stepRule ctx) ({} : EvalState)).best < base then ({} : CondLists)
       else (rules.foldl (stepRule ctx) ({} : EvalState)).conds) := rfl
  have e2 : evalRules base (rules.filter rateUsable) ctx =
      (max base (((rules.filter rateUsable).foldl (stepRule ctx) ({} : EvalState)).best),
       if max base (((rules.filter rateUsable).foldl (stepRule ctx) ({} : EvalState)).best) =
            base ∧
          ((rules.filter rateUsable).foldl (stepRule ctx) ({} : EvalState)).best < base then
         ({} : CondLists)
       else ((rules.filter rateUsable).foldl (stepRule ctx) ({} : EvalState)).conds) := rfl
  have hmain : evalRules base (rules.filter rateUsable) ctx = evalRules base rules ctx := by
    rcases hfold with ⟨_, heq⟩ | ⟨h1, h2⟩
    · rw [e1, e2, ← heq]
    · have hb1 : (rules.foldl (stepRule ctx) ({} : EvalState)).best < base :=
        lt_of_lt_of_le h1 hbase
      have hb2 : ((rules.filter rateUsable).foldl (stepRule ctx) ({} : EvalState)).best < base :=
        lt_of_lt_of_le h2 hbase
      rw [e1, e2, if_pos ⟨max_eq_left hb2.le, hb2⟩, if_pos ⟨max_eq_left hb1.le, hb1⟩,
        max_eq_left hb2.le, max_eq_left hb1.le]
  refine ⟨hmain, ?_⟩
  intro hall
  have hfil : rules.filter rateUsable = [] :=
    List.filter_eq_nil_iff.mpr (by intro a ha; simp [hall a ha])
  have hnil : evalRules base ([] : List RewardRule) ctx = (base, ({} : CondLists)) := by
    have e3 : evalRules base ([] : List RewardRule) ctx =
        (max base (-1 : ℚ),
         if max base (-1 : ℚ) = base ∧ (-1 : ℚ) < base then ({} : CondLists)
         else ({} : CondLists)) := rfl
    rw [e3, max_eq_left (by linarith : (-1 : ℚ) ≤ base), ite_self]
  rw [← hmain, hfil, hnil]

/-- Witness for C7: a rule list holding a malformed-rate rule, a
negative-rate rule and one usable rule evaluates exactly as the usable rules
alone. -/
theorem claim_C7_witness :
    evalRules 1 (demoSkipRules.filter rateUsable) demoCtxDining =
      evalRules 1 demoSkipRules demoCtxDining :=
  (claim_C7_skip_malformed 1 demoSkipRules demoCtxDining (by norm_num)).1

/-- Counterexample to C4 as stated: ranking a dynamic card whose active-rule
entry's nested rule lacks a `rate` key changes the stored card record (the
entry-level rate is written into the nested rule dict in place). -/
theorem claim_C4_counterexample :
    (find_best_card_for_transaction [demoMutCard] ({} : TransactionContext) 1).2 ≠
      [demoMutCard] := by
  decide

/-- C4 amended: both ranking operations leave every card unchanged except
that a Dynamic card's nested active-rule entries get the entry-level rate
copied into their rule dicts (`cardAfterEval`); cards of any other
structure type, and dynamic cards whose entries already carry their rates,
are returned exactly as stored. -/
theorem claim_C4_amended (cards : List Card) (ctx : TransactionContext) (month : Nat) :
    (find_best_card_for_transaction cards ctx month).2 = cards.map cardAfterEval
    ∧ (get_best_overall_reward_scenarios cards month).2 = cards.map cardAfterEval
    ∧ (∀ card : Card, card.reward_structure_type.getD "Static" ≠ "Dynamic" →
        cardAfterEval card = card)
    ∧ (∀ card : Card, card.dynamic_rewards.active_rules.all entryRateSynced = true →
        cardAfterEval card = card) := by
  refine ⟨find_best_state cards ctx month, enumerate_state cards month, ?_, ?_⟩
  · intro card h
    simp [cardAfterEval, h]
  · intro card hall
    unfold cardAfterEval
    by_cases h : card.reward_structure_type.getD "Static" = "Dynamic"
    · rw [if_pos h]
      have hmap : card.dynamic_rewards.active_rules.map mutateEntry =
          card.dynamic_rewards.active_rules := by
        have hfix : ∀ e ∈ card.dynamic_rewards.active_rules, mutateEntry e = e := by
          intro e he
          have hs := List.all_eq_true.mp hall e he
          cases e with
          | nested tid r v =>
            have hr : r.rate = some v := by simpa [entryRateSynced] using hs
            show ActiveEntry.nested tid { r with rate := some v } v =
              ActiveEntry.nested tid r v
            rw [← hr]
          | flat r => rfl
          | notDict => rfl
        calc card.dynamic_rewards.active_rules.map mutateEntry
            = card.dynamic_rewards.active_rules.map id := List.map_congr_left hfix
        _ = card.dynamic_rewards.active_rules := List.map_id _
      rw [hmap]
    · rw [if_neg h]

/-- Witness for the amended C4: the post-call state of a one-card dynamic
store is its `cardAfterEval` image, and a static card is untouched. -/
theorem claim_C4_witness :
    (find_best_card_for_transaction [demoMutCard] demoCtxDining 1).2 =
      [demoMutCard].map cardAfterEval
    ∧ cardAfterEval demoCardA = demoCardA :=
  ⟨(claim_C4_amended [demoMutCard] demoCtxDining 1).1,
   (claim_C4_amended [demoMutCard] demoCtxDining 1).2.2.1 demoCardA (by decide)⟩

/-- C6: with a card id absent from the store, `optimize_dynamic_rewards`
returns failure without touching the store; `update_active_rules`, however,
never reaches its not-found branch - its first statement
`self.get_credit_cards()` raises `AttributeError` on every call, because
`DataManager` defines no such method (and `self.logger` is likewise
undefined), so the exception escapes the operation instead of the
documented `False` return. -/
theorem claim_C6_unknown_card :
    optimize_dynamic_rewards [demoCardA] "ghost-card" = (false, [demoCardA])
    ∧ update_active_rules "ghost-card" [] =
        Except.error (PyErr.attributeError "get_credit_cards") := by
  constructor
  · decide
  · rfl

/-- C9: the optimiser's score is exactly `tier_rate - best_competing_rate`,
where `best_competing_rate` is the least upper bound of the rates the other
cards offer for the rule's combination (per their own
static/rotating/dynamic records) and of `0`: it is non-negative, bounds
every offer, and is `0` or attained by some other card's offer. -/
theorem claim_C9_score (r : CompRule) (tier_rate : ℚ) (other_cards : List CompCard) :
    calculate_rule_score r tier_rate other_cards =
      tier_rate - best_competing_rate r other_cards
    ∧ 0 ≤ best_competing_rate r other_cards
    ∧ (∀ c ∈ other_cards, ∀ v ∈ cardOfferList r c, v ≤ best_competing_rate r other_cards)
    ∧ (best_competing_rate r other_cards = 0 ∨
        ∃ c ∈ other_cards, best_competing_rate r other_cards ∈ cardOfferList r c) := by
  refine ⟨rfl, compFold_init_le r other_cards 0, ?_, compFold_attain r other_cards 0⟩
  intro c hc v hv
  exact compFold_upper r other_cards 0 c hc v hv

/-- Witness for C9: a static card offering 3.0 on the rule's `Gas` category
pushes the competing rate to at least 3.0. -/
theorem claim_C9_witness :
    (3 : ℚ) ≤ best_competing_rate demoCompRule [demoCompCard] :=
  (claim_C9_score demoCompRule 5 [demoCompCard]).2.2.1 demoCompCard
    (List.mem_singleton.mpr rfl) 3 (by decide)

/-- C10: for a stored card whose nested `reward_structure.type` is
`'dynamic'` (the condition `optimize_dynamic_rewards` actually tests), the
operation returns `True` and leaves the store - including
`dynamic_rewards.active_rules` - exactly as it was: the selection logic is
a placeholder that never runs.  The card is assumed to be in the loader's
normal form (`normalizeCardDetails` fixes it), as stored cards are. -/
theorem claim_C10_optimize_noop (cards : List Card) (id : String) (c : Card)
    (hfind : cards.find? (fun x => x.id == some id) = some c)
    (hdyn : c.reward_structure.bind RSInfo.rstype = some "dynamic")
    (hnorm : normalizeCardDetails c = c) :
    optimize_dynamic_rewards cards id = (true, cards) := by
  have hdet : get_manual_credit_card_details cards id = (c, cards) := by
    unfold get_manual_credit_card_details
    rw [hfind]
    show (normalizeCardDetails c,
        replaceFirst (fun x => x.id == some id) (normalizeCardDetails c) cards) = (c, cards)
    rw [hnorm, replaceFirst_find_self cards _ c hfind]
  unfold optimize_dynamic_rewards
  rw [hdet]
  rw [if_neg (fun hne => hne hdyn)]

/-- Witness for C10: a concrete dynamic-typed card with one active rule;
optimisation reports success and the store is unchanged. -/
theorem claim_C10_witness :
    optimize_dynamic_rewards [demoOptCard] "card-opt" = (true, [demoOptCard]) :=
  claim_C10_optimize_noop [demoOptCard] "card-opt" demoOptCard (by decide) (by decide)
    (by decide)

/-- C8: the browse view's output is the stable descending-by-rate sort of
the generated scenarios: it is sorted by `rateGE`, equal-rate rows keep
generation order (the filter at each rate is unchanged), each card
contributes its base-rate scenario exactly when `base_rate > 0`, and a rule
contributes a scenario exactly when its rate parses positive and it is not
an unconditional duplicate of the base rate. -/
theorem claim_C8_browse_view (cards : List Card) (month : Nat) :
    (get_best_overall_reward_scenarios cards month).1 =
      sortByRateDesc (allGenScenarios cards month)
    ∧ List.Sorted rateGE (get_best_overall_reward_scenarios cards month).1
    ∧ (∀ q : ℚ,
        ((get_best_overall_reward_scenarios cards month).1.filter
            fun s => decide (s.rate = q)) =
          ((allGenScenarios cards month).filter fun s => decide (s.rate = q)))
    ∧ (∀ (card : Card) (rules : List RewardRule),
        (genCardScenarios card rules).countP (fun s => decide (s = baseScenario card)) =
          if 0 < parseBaseRate card then 1 else 0)
    ∧ (∀ (base : ℚ) (info : CardInfo) (r : RewardRule),
        (ruleScenario base info r).isSome = true ↔
          ∃ q, parseRate (r.rate.getD (RateVal.num 0)) = some q ∧ 0 < q ∧
            ¬(extractNames r.category = [] ∧ extractNames r.payee = [] ∧
              extractNames r.paymentMethod = [] ∧ q = base)) := by
  refine ⟨enumerate_results cards month, ?_, ?_, genCard_count_base, ruleScenario_isSome_iff⟩
  · rw [enumerate_results]
    exact sorted_sortByRateDesc _
  · intro q
    rw [enumerate_results]
    exact filter_sortByRateDesc q _
